import Mathlib

/-!
Shallow embedding of the xtor actor-runtime core, translated from
src/actor/addr.rs (Addr, WeakAddr, Event, the Exec closure built by
call_unblock and proxy, call_timeout) and src/actor/runner.rs
(ActorRunner::run, ActorRunner::supervised_run, the registries).

Errors (anyhow::Error) are modelled as strings; a oneshot reply channel is
modelled by the value it delivers, with none standing for cancellation
(sender dropped without sending).  The runner task is modelled as a pure
recursive function over the finite list of events drained from the mailbox,
emitting a trace of observable actions.
-/

deriving instance DecidableEq for Except

namespace Xtor

abbrev ActorID := Nat

/-- Errors carried by anyhow::Result are modelled as their display strings. -/
abbrev Err := String

/-- Display string of futures::channel::oneshot::Canceled, the error a caller
sees when the reply sender is dropped without sending. -/
def canceledErr : Err := "oneshot canceled"

/-- Error produced by the proxy closure in Addr::proxy when the weak sender
fails to upgrade (src/actor/addr.rs line 162). -/
def proxyDroppedErr : Err := "error: proxy tx is dropped"

/-- Error produced when downcast_ref fails in the Exec closure
(src/actor/addr.rs lines 121-126); the source formats the actor and trait
type names into the message, abbreviated here to a fixed string. -/
def downcastErr : Err := "error: trying to handle a message in an actor that does not implement the required handler trait"

/-- Panic message of the Restart and AddSupervisor arms of the unsupervised
event loop (src/actor/runner.rs lines 125 and 128). -/
def panicSupervisorMsg : String := "this event could only send by supervisor"

/-- Data determining one Exec closure as built by Addr::call_unblock or the
proxy closure: whether downcast_ref to the handler type succeeds, and the
outcome the handler produces when invoked.  The type parameter is the
message result type T::Result. -/
structure ExecCl (ρ : Type) where
  downcastOk : Bool
  handler : Except Err ρ
  deriving DecidableEq, Repr

/-- Event enqueued to an actor mailbox (src/actor/addr.rs lines 34-39).
Exec events additionally carry an identifier naming the reply channel they
close over; AddSupervisor carries an identifier of the supervisor proxy. -/
inductive Event (ρ : Type) where
  | Stop (r : Except Err Unit)
  | Exec (i : Nat) (c : ExecCl ρ)
  | Restart
  | AddSupervisor (p : Nat)
  deriving DecidableEq, Repr

/-- Behaviour of the Exec closure built in call_unblock (src/actor/addr.rs
lines 110-130): returns the closure result together with the value sent on
the reply channel (none when the sender is dropped without sending).  On
downcast failure, or when the handler fails, no reply is sent and the
closure returns the error; on handler success Ok(res) is sent and the
closure returns ok. -/
def execClosure {ρ : Type} (c : ExecCl ρ) : Except Err Unit × Option (Except Err ρ) :=
  if c.downcastOk then
    match c.handler with
    | .ok r => (.ok (), some (.ok r))
    | .error e => (.error e, none)
  else (.error downcastErr, none)

/-- Observable actions of a runner, in program order. -/
inductive Act (ρ : Type) where
  | insertName (id : ActorID)
  | ranOnStart (r : Except Err Unit)
  | addrReturned
  | observed (e : Event ρ)
  | replySent (i : Nat) (v : Except Err ρ)
  | executed (i : Nat) (r : Except Err Unit)
  | stopObserved (r : Except Err Unit)
  | supervisorAdded (p : Nat)
  | restartHookRan
  | escalated (d : Except Err Unit)
  | panicAct (msg : String)
  | ranOnStop
  | exitFired
  | returned (r : Except Err Unit)
  | insertHandle (id : ActorID)
  deriving DecidableEq, Repr

/-- Reply actions emitted by one Exec closure execution. -/
def repActs {ρ : Type} (rep : Option (Except Err ρ)) (i : Nat) : List (Act ρ) :=
  match rep with
  | some v => [.replySent i v]
  | none => []

/-- Outcome of the unsupervised event loop of ActorRunner::run
(src/actor/runner.rs lines 110-131): the recorded exit_err, the action
trace, the events left unconsumed in the mailbox, and the panic message if
the task panicked. -/
structure LoopOut (ρ : Type) where
  exitErr : Except Err Unit
  trace : List (Act ρ)
  remaining : List (Event ρ)
  panicMsg : Option String
  deriving DecidableEq, Repr

/-- Unsupervised event loop (src/actor/runner.rs lines 110-131), as a
function of the finite sequence of events drained from the mailbox.
Stop(err) records err and breaks; Exec runs the closure, breaking on error;
Restart and AddSupervisor panic; mailbox exhaustion ends the loop with the
initial Ok exit_err. -/
def eventLoop {ρ : Type} : List (Event ρ) → LoopOut ρ
  | [] => ⟨.ok (), [], [], none⟩
  | .Stop r :: rest => ⟨r, [.observed (.Stop r), .stopObserved r], rest, none⟩
  | .Exec i c :: rest =>
    match execClosure c with
    | (.ok _, rep) =>
      let out := eventLoop rest
      ⟨out.exitErr,
        .observed (.Exec i c) :: repActs rep i ++ [.executed i (.ok ())] ++ out.trace,
        out.remaining, out.panicMsg⟩
    | (.error e, rep) =>
      ⟨.error e,
        .observed (.Exec i c) :: repActs rep i ++ [.executed i (.error e)],
        rest, none⟩
  | .Restart :: rest =>
    ⟨.ok (), [.observed .Restart, .panicAct panicSupervisorMsg], rest, some panicSupervisorMsg⟩
  | .AddSupervisor p :: rest =>
    ⟨.ok (), [.observed (.AddSupervisor p), .panicAct panicSupervisorMsg], rest,
      some panicSupervisorMsg⟩

/-- State of the shared oneshot exit signal: not yet resolved, resolved by a
successful send, or resolved by the sender being dropped (cancellation). -/
inductive SignalState where
  | notFired
  | firedOk
  | canceled
  deriving DecidableEq, Repr

/-- Addr::await_stop (src/actor/addr.rs lines 205-207): awaiting the shared
exit receiver.  none models that the caller is still blocked; once the
signal resolves every awaiter gets the same outcome. -/
def awaitStop : SignalState → Option (Except Err Unit)
  | .notFired => none
  | .firedOk => some (.ok ())
  | .canceled => some (.error canceledErr)

/-- Process-wide registries ACTOR_ID_NAME and ACTOR_ID_HANDLE
(src/actor/runner.rs lines 26-31); a handle is represented by the id it is
registered under. -/
structure Registry where
  names : List (ActorID × Option String)
  handles : List ActorID
  deriving DecidableEq, Repr

/-- Combined outcome of ActorRunner::run or supervised_run together with its
spawned task: the value returned to the spawning caller (Ok standing for a
strong Addr), the full action trace, whether the mailbox loop was entered,
the final exit-signal state, the task return value (none when the task
panicked or was never spawned), and the registries after the call. -/
structure RunOut (ρ : Type) where
  spawnResult : Except Err Unit
  trace : List (Act ρ)
  loopEntered : Bool
  signal : SignalState
  taskResult : Option (Except Err Unit)
  registry : Registry
  deriving DecidableEq, Repr

/-- ActorRunner::run (src/actor/runner.rs lines 94-138): insert (id, None)
into ACTOR_ID_NAME, run on_start (a failure aborts the spawn before the
task is created, leaving the exit sender to be dropped), otherwise spawn
the task running the event loop, insert the handle, and return the Addr.
On normal task end on_stop runs, the exit signal fires, and the task
returns the recorded exit_err; on panic neither happens and the exit
signal is cancelled. -/
def runActor {ρ : Type} (id : ActorID) (onStart : Except Err Unit)
    (queue : List (Event ρ)) (reg : Registry) : RunOut ρ :=
  let reg1 : Registry := ⟨(id, none) :: reg.names, reg.handles⟩
  match onStart with
  | .error e =>
    ⟨.error e, [.insertName id, .ranOnStart (.error e)], false, .canceled, none, reg1⟩
  | .ok _ =>
    let lr := eventLoop queue
    match lr.panicMsg with
    | some _ =>
      ⟨.ok (), [.insertName id, .ranOnStart (.ok ()), .addrReturned] ++ lr.trace,
        true, .canceled, none, ⟨reg1.names, id :: reg1.handles⟩⟩
    | none =>
      ⟨.ok (),
        [.insertName id, .ranOnStart (.ok ()), .addrReturned] ++ lr.trace
          ++ [.ranOnStop, .exitFired, .returned lr.exitErr],
        true, .firedOk, some lr.exitErr, ⟨reg1.names, id :: reg1.handles⟩⟩

/-- Outcome of the supervised loop of ActorRunner::supervised_run
(src/actor/runner.rs lines 157-193). -/
structure SupOut (ρ : Type) where
  exitErr : Except Err Unit
  trace : List (Act ρ)
  remaining : List (Event ρ)
  decisionsUsed : Nat
  deriving DecidableEq, Repr

/-- Supervised loop of ActorRunner::supervised_run (src/actor/runner.rs
lines 158-193), with the outer supervising loop and inner event loop folded
into one recursion over the drained events.  The k-th call of
ctx.await_supervisor() (context.rs, not under src; its decision is taken as
the abstract parameter decisions k) yields Ok to restart or Err to
terminate.  On a failure (Exec error or Stop(Err)) the loop escalates: a
terminate decision becomes the final exit_err; a restart decision runs
on_restart and re-enters the event loop on the remaining queue.  A Restart
event runs on_restart and continues; AddSupervisor is recorded and the loop
continues; Stop(Ok) and mailbox exhaustion end the loop with Ok. -/
def supLoop {ρ : Type} (decisions : Nat → Except Err Unit) :
    List (Event ρ) → Nat → SupOut ρ
  | [], k => ⟨.ok (), [], [], k⟩
  | .Stop (.ok u) :: rest, k =>
    ⟨.ok u, [.observed (.Stop (.ok u)), .stopObserved (.ok u)], rest, k⟩
  | .Stop (.error e) :: rest, k =>
    match decisions k with
    | .error e2 =>
      ⟨.error e2,
        [.observed (.Stop (.error e)), .stopObserved (.error e), .escalated (.error e2)],
        rest, k + 1⟩
    | .ok _ =>
      let out := supLoop decisions rest (k + 1)
      ⟨out.exitErr,
        [.observed (.Stop (.error e)), .stopObserved (.error e),
          .escalated (.ok ()), .restartHookRan] ++ out.trace,
        out.remaining, out.decisionsUsed⟩
  | .Exec i c :: rest, k =>
    match execClosure c with
    | (.ok _, rep) =>
      let out := supLoop decisions rest k
      ⟨out.exitErr,
        .observed (.Exec i c) :: repActs rep i ++ [.executed i (.ok ())] ++ out.trace,
        out.remaining, out.decisionsUsed⟩
    | (.error e, rep) =>
      match decisions k with
      | .error e2 =>
        ⟨.error e2,
          .observed (.Exec i c) :: repActs rep i
            ++ [.executed i (.error e), .escalated (.error e2)],
          rest, k + 1⟩
      | .ok _ =>
        let out := supLoop decisions rest (k + 1)
        ⟨out.exitErr,
          .observed (.Exec i c) :: repActs rep i
            ++ [.executed i (.error e), .escalated (.ok ()), .restartHookRan] ++ out.trace,
          out.remaining, out.decisionsUsed⟩
  | .Restart :: rest, k =>
    let out := supLoop decisions rest k
    ⟨out.exitErr, [.observed .Restart, .restartHookRan] ++ out.trace,
      out.remaining, out.decisionsUsed⟩
  | .AddSupervisor p :: rest, k =>
    let out := supLoop decisions rest k
    ⟨out.exitErr, [.observed (.AddSupervisor p), .supervisorAdded p] ++ out.trace,
      out.remaining, out.decisionsUsed⟩

/-- ActorRunner::supervised_run (src/actor/runner.rs lines 140-200): same
prelude and postlude as run, around the supervised loop; the supervised
loop has no panicking arm. -/
def supervisedRunActor {ρ : Type} (id : ActorID) (onStart : Except Err Unit)
    (decisions : Nat → Except Err Unit) (queue : List (Event ρ)) (reg : Registry) :
    RunOut ρ :=
  let reg1 : Registry := ⟨(id, none) :: reg.names, reg.handles⟩
  match onStart with
  | .error e =>
    ⟨.error e, [.insertName id, .ranOnStart (.error e)], false, .canceled, none, reg1⟩
  | .ok _ =>
    let lr := supLoop decisions queue 0
    ⟨.ok (),
      [.insertName id, .ranOnStart (.ok ()), .addrReturned] ++ lr.trace
        ++ [.ranOnStop, .exitFired, .returned lr.exitErr],
      true, .firedOk, some lr.exitErr, ⟨reg1.names, id :: reg1.handles⟩⟩

/-- Projection selecting observed events from a trace. -/
def obsOf {ρ : Type} : Act ρ → Option (Event ρ)
  | .observed e => some e
  | _ => none

/-- Events observed (dequeued) by the loop, in trace order. -/
def observedOf {ρ : Type} (tr : List (Act ρ)) : List (Event ρ) :=
  tr.filterMap obsOf

/-- Projection selecting executed Exec identifiers from a trace. -/
def exeOf {ρ : Type} : Act ρ → Option Nat
  | .executed i _ => some i
  | _ => none

/-- Identifiers of the Exec events executed, in trace order. -/
def executedIds {ρ : Type} (tr : List (Act ρ)) : List Nat :=
  tr.filterMap exeOf

/-- Identifier carried by an Exec event. -/
def execId {ρ : Type} : Event ρ → Option Nat
  | .Exec i _ => some i
  | _ => none

/-- Identifiers of the Exec events of a queue, in queue order. -/
def execIds {ρ : Type} (q : List (Event ρ)) : List Nat :=
  q.filterMap execId

/-- Projection selecting a reply sent on channel i. -/
def repOf {ρ : Type} (i : Nat) : Act ρ → Option (Except Err ρ)
  | .replySent j v => if j = i then some v else none
  | _ => none

/-- Value delivered on the reply channel i by a trace: the first reply sent
with that identifier, none when the channel is never sent on (its sender is
eventually dropped, cancelling the receiver). -/
def replyDelivery {ρ : Type} (tr : List (Act ρ)) (i : Nat) : Option (Except Err ρ) :=
  (tr.filterMap (repOf i)).head?

/-- Result of Addr::call (src/actor/addr.rs lines 99-101) awaiting reply
channel i: the delivered value, or the cancellation error when the sender
was dropped without sending. -/
def callOutcome {ρ : Type} (tr : List (Act ρ)) (i : Nat) : Except Err ρ :=
  match replyDelivery tr i with
  | some v => v
  | none => .error canceledErr

/-- Addr::call_timeout (src/actor/addr.rs lines 137-149): the race of the
reply against the timer, given how long the reply takes to resolve, the
timeout duration, and the channel outcome.  When the timer wins the result
is Ok(None); otherwise a cancelled channel becomes an error and a delivered
value v becomes Ok(v.ok()). -/
def call_timeout {ρ : Type} (replyElapsed timeout : Nat)
    (chanOutcome : Option (Except Err ρ)) : Except Err (Option ρ) :=
  if timeout < replyElapsed then .ok none
  else
    match chanOutcome with
    | none => .error canceledErr
    | some (.ok r) => .ok (some r)
    | some (.error _) => .ok none

/-- Predicate selecting the exit-signal firing action. -/
def isFired {ρ : Type} : Act ρ → Bool
  | .exitFired => true
  | _ => false

/-- Number of exit-signal firings in a trace. -/
def countFired {ρ : Type} (tr : List (Act ρ)) : Nat :=
  tr.countP isFired

/-- Events valid to enqueue to an unsupervised actor (Restart and
AddSupervisor may only be sent by the supervisor protocol). -/
def validEvent {ρ : Type} : Event ρ → Bool
  | .Restart => false
  | .AddSupervisor _ => false
  | _ => true

/-- Event whose Exec closure succeeds. -/
def execOkEvent {ρ : Type} : Event ρ → Bool
  | .Exec _ c =>
    match (execClosure c).1 with
    | .ok _ => true
    | .error _ => false
  | _ => false

/-- Trace emitted by the event loop while draining a run of Exec events
whose closures all succeed (the loop does not break inside such a run). -/
def preTrace {ρ : Type} : List (Event ρ) → List (Act ρ)
  | [] => []
  | .Exec i c :: rest =>
    .observed (.Exec i c) :: repActs (execClosure c).2 i
      ++ [.executed i (.ok ())] ++ preTrace rest
  | _ :: rest => preTrace rest

/-- Shared-ownership state of a mailbox sender: the number of live strong
references (Addr clones and the one retained at spawn). -/
structure MailboxRef where
  strongCount : Nat
  deriving DecidableEq, Repr

/-- Strong address handle, reduced to the actor id it carries. -/
structure Addr where
  id : ActorID
  deriving DecidableEq, Repr

/-- Weak address handle (src/actor/addr.rs lines 252-256). -/
structure WeakAddr where
  id : ActorID
  deriving DecidableEq, Repr

/-- WeakAddr::upgrade (src/actor/addr.rs lines 272-278): Weak::upgrade on
the sender succeeds exactly while a strong reference is live. -/
def WeakAddr.upgrade (m : MailboxRef) (w : WeakAddr) : Option Addr :=
  if 0 < m.strongCount then some ⟨w.id⟩ else none

/-- Sending step of the proxy closure built in Addr::proxy
(src/actor/addr.rs lines 156-186): upgrade the weak sender, failing with
the fixed address-gone error when no strong reference is live, otherwise
enqueue the Exec event for the captured message. -/
def proxySend {ρ : Type} (m : MailboxRef) (i : Nat) (c : ExecCl ρ) : Except Err (Event ρ) :=
  if 0 < m.strongCount then .ok (.Exec i c) else .error proxyDroppedErr

/-- Helper: the event loop drains a run of succeeding Exec events without
breaking, appending their trace in front of the remainder of the loop. -/
theorem eventLoop_append_ok {ρ : Type} (pre q : List (Event ρ))
    (h : ∀ ev ∈ pre, execOkEvent ev = true) :
    eventLoop (pre ++ q) =
      ⟨(eventLoop q).exitErr, preTrace pre ++ (eventLoop q).trace,
        (eventLoop q).remaining, (eventLoop q).panicMsg⟩ := by
  induction pre with
  | nil => simp [preTrace]
  | cons ev pre ih =>
    have hev : execOkEvent ev = true := h ev (by simp)
    have hpre : ∀ e ∈ pre, execOkEvent e = true := fun e he => h e (by simp [he])
    cases ev with
    | Stop r => simp [execOkEvent] at hev
    | Restart => simp [execOkEvent] at hev
    | AddSupervisor p => simp [execOkEvent] at hev
    | Exec i c =>
      rcases c with ⟨dc, hr⟩
      cases dc with
      | false => simp [execOkEvent, execClosure] at hev
      | true =>
        cases hr with
        | error e => simp [execOkEvent, execClosure] at hev
        | ok r => simp [eventLoop, execClosure, preTrace, repActs, ih hpre]

/-- Helper: a run of succeeding Exec events whose identifiers avoid i sends
no reply on channel i. -/
theorem filterMap_repOf_preTrace {ρ : Type} (pre : List (Event ρ)) (i : Nat)
    (hi : i ∉ execIds pre) :
    (preTrace pre).filterMap (repOf i) = [] := by
  induction pre with
  | nil => simp [preTrace]
  | cons ev pre ih =>
    cases ev with
    | Stop r => exact ih (by simpa [execIds, execId] using hi)
    | Restart => exact ih (by simpa [execIds, execId] using hi)
    | AddSupervisor p => exact ih (by simpa [execIds, execId] using hi)
    | Exec j c =>
      have hji : j ≠ i := by
        intro hji
        exact hi (by simp [execIds, execId, hji])
      have hi2 : i ∉ execIds pre := by
        intro hmem
        exact hi (by simp [execIds, execId] at hmem ⊢; exact Or.inr hmem)
      rcases c with ⟨dc, hr⟩
      cases dc with
      | false => simpa [preTrace, execClosure, repActs, repOf, hji] using ih hi2
      | true =>
        cases hr with
        | error e => simpa [preTrace, execClosure, repActs, repOf, hji] using ih hi2
        | ok r => simpa [preTrace, execClosure, repActs, repOf, hji] using ih hi2

/-- Helper: the event loop never panics on a queue of valid events. -/
theorem eventLoop_panic_none {ρ : Type} (q : List (Event ρ))
    (h : ∀ ev ∈ q, validEvent ev = true) :
    (eventLoop q).panicMsg = none := by
  induction q with
  | nil => simp [eventLoop]
  | cons ev rest ih =>
    have hrest : ∀ e ∈ rest, validEvent e = true := fun e he => h e (by simp [he])
    cases ev with
    | Stop r => simp [eventLoop]
    | Restart => have := h .Restart (by simp); simp [validEvent] at this
    | AddSupervisor p => have := h (.AddSupervisor p) (by simp); simp [validEvent] at this
    | Exec i c =>
      rcases c with ⟨dc, hr⟩
      cases dc with
      | false => simp [eventLoop, execClosure]
      | true =>
        cases hr with
        | error e => simp [eventLoop, execClosure]
        | ok r => simpa [eventLoop, execClosure] using ih hrest

/-- Helper: the event loop itself never fires the exit signal. -/
theorem countFired_eventLoop {ρ : Type} (q : List (Event ρ)) :
    countFired (eventLoop q).trace = 0 := by
  induction q with
  | nil => simp [eventLoop, countFired]
  | cons ev rest ih =>
    cases ev with
    | Stop r => simp [eventLoop, countFired, List.countP_cons, isFired]
    | Restart => simp [eventLoop, countFired, List.countP_cons, isFired]
    | AddSupervisor p => simp [eventLoop, countFired, List.countP_cons, isFired]
    | Exec i c =>
      rcases c with ⟨dc, hr⟩
      cases dc with
      | false => simp [eventLoop, execClosure, repActs, countFired, List.countP_cons, isFired]
      | true =>
        cases hr with
        | error e =>
          simp [eventLoop, execClosure, repActs, countFired, List.countP_cons, isFired]
        | ok r =>
          simpa [eventLoop, execClosure, repActs, countFired, List.countP_append,
            List.countP_cons, isFired] using ih

/-- Helper: the supervised loop itself never fires the exit signal. -/
theorem countFired_supLoop {ρ : Type} (decisions : Nat → Except Err Unit)
    (q : List (Event ρ)) : ∀ k, countFired (supLoop decisions q k).trace = 0 := by
  induction q with
  | nil => intro k; simp [supLoop, countFired]
  | cons ev rest ih =>
    intro k
    cases ev with
    | Stop r =>
      cases r with
      | ok u => simp [supLoop, countFired, List.countP_cons, isFired]
      | error e =>
        cases hd : decisions k with
        | error e2 => simp [supLoop, hd, countFired, List.countP_cons, isFired]
        | ok u =>
          simpa [supLoop, hd, countFired, List.countP_append, List.countP_cons, isFired]
            using ih (k + 1)
    | Restart =>
      simpa [supLoop, countFired, List.countP_append, List.countP_cons, isFired] using ih k
    | AddSupervisor p =>
      simpa [supLoop, countFired, List.countP_append, List.countP_cons, isFired] using ih k
    | Exec i c =>
      rcases c with ⟨dc, hr⟩
      cases dc with
      | false =>
        cases hd : decisions k with
        | error e2 =>
          simp [supLoop, execClosure, hd, repActs, countFired, List.countP_cons, isFired]
        | ok u =>
          simpa [supLoop, execClosure, hd, repActs, countFired, List.countP_append,
            List.countP_cons, isFired] using ih (k + 1)
      | true =>
        cases hr with
        | error e =>
          cases hd : decisions k with
          | error e2 =>
            simp [supLoop, execClosure, hd, repActs, countFired, List.countP_cons, isFired]
          | ok u =>
            simpa [supLoop, execClosure, hd, repActs, countFired, List.countP_append,
              List.countP_cons, isFired] using ih (k + 1)
        | ok r =>
          simpa [supLoop, execClosure, repActs, countFired, List.countP_append,
            List.countP_cons, isFired] using ih k

/-- C9: spawn is not atomic on the error path.  When the startup hook fails,
the fresh actor id has already been inserted into ACTOR_ID_NAME mapped to no
name and the entry is not removed when the error is returned, while
ACTOR_ID_HANDLE is unchanged and no mailbox loop is entered; the same holds
for the supervised runner. -/
theorem c9_spawn_error_registry_frame {ρ : Type} (id : ActorID) (e : Err)
    (queue : List (Event ρ)) (reg : Registry) (decisions : Nat → Except Err Unit) :
    (runActor id (.error e) queue reg).registry.names = (id, none) :: reg.names
    ∧ (runActor id (.error e) queue reg).registry.handles = reg.handles
    ∧ (runActor id (.error e) queue reg).spawnResult = .error e
    ∧ (runActor id (.error e) queue reg).loopEntered = false
    ∧ (supervisedRunActor id (.error e) decisions queue reg).registry.names
        = (id, none) :: reg.names
    ∧ (supervisedRunActor id (.error e) decisions queue reg).registry.handles
        = reg.handles := by
  simp [runActor, supervisedRunActor]

/-- C6: once the mailbox has shut down (no strong sender left), a weak
address upgrade yields nothing and the proxy sending step fails immediately
with the fixed address-gone error, which does not depend on the message and
differs from the message-content (handler-mismatch) error; while a strong
sender exists, upgrade succeeds. -/
theorem c6_weak_upgrade_proxy_gone {ρ : Type} (m : MailboxRef) (w : WeakAddr)
    (i j : Nat) (c c2 : ExecCl ρ) :
    (m.strongCount = 0 →
        WeakAddr.upgrade m w = none
        ∧ proxySend m i c = .error proxyDroppedErr)
    ∧ (0 < m.strongCount → WeakAddr.upgrade m w = some ⟨w.id⟩)
    ∧ proxySend (⟨0⟩ : MailboxRef) i c = proxySend (⟨0⟩ : MailboxRef) j c2
    ∧ proxyDroppedErr ≠ downcastErr := by
  refine ⟨?_, ?_, ?_, ?_⟩
  · intro h
    constructor
    · simp [WeakAddr.upgrade, h]
    · simp [proxySend, h]
  · intro h
    simp [WeakAddr.upgrade, h]
  · simp [proxySend]
  · decide

/-- Witness for C6 at a concrete dead and a concrete live mailbox. -/
theorem c6_weak_upgrade_proxy_gone_witness :
    WeakAddr.upgrade ⟨0⟩ ⟨3⟩ = none
    ∧ proxySend (⟨0⟩ : MailboxRef) 1 (⟨true, .ok 5⟩ : ExecCl Nat) = .error proxyDroppedErr
    ∧ WeakAddr.upgrade ⟨2⟩ ⟨3⟩ = some ⟨3⟩ := by
  have h := c6_weak_upgrade_proxy_gone (ρ := Nat) ⟨0⟩ ⟨3⟩ 1 1 ⟨true, .ok 5⟩ ⟨true, .ok 5⟩
  have h2 := c6_weak_upgrade_proxy_gone (ρ := Nat) ⟨2⟩ ⟨3⟩ 1 1 ⟨true, .ok 5⟩ ⟨true, .ok 5⟩
  exact ⟨(h.1 rfl).1, (h.1 rfl).2, h2.2.1 (by decide)⟩

/-- C3: spawn returns an error exactly when the startup hook fails; on
failure the mailbox loop is never entered, no event is executed and no
strong address is handed out, and on success the caller receives the strong
address only after the startup hook has completed. -/
theorem c3_spawn_startup_hook {ρ : Type} (id : ActorID) (onStart : Except Err Unit)
    (queue : List (Event ρ)) (reg : Registry) :
    (runActor id onStart queue reg).spawnResult = onStart
    ∧ (∀ e, onStart = .error e →
        (runActor id onStart queue reg).loopEntered = false
        ∧ executedIds (runActor id onStart queue reg).trace = []
        ∧ Act.addrReturned ∉ (runActor id onStart queue reg).trace)
    ∧ (onStart = .ok () →
        (runActor id onStart queue reg).spawnResult = .ok ()
        ∧ ∃ t, (runActor id onStart queue reg).trace =
            Act.insertName id :: Act.ranOnStart (.ok ()) :: Act.addrReturned :: t) := by
  cases onStart with
  | error e0 =>
    refine ⟨rfl, ?_, ?_⟩
    · intro e he
      refine ⟨rfl, by simp [runActor, executedIds, exeOf], by simp [runActor]⟩
    · intro h; cases h
  | ok u =>
    cases u
    refine ⟨?_, ?_, ?_⟩
    · cases hp : (eventLoop queue).panicMsg with
      | none => simp [runActor, hp]
      | some m => simp [runActor, hp]
    · intro e he; cases he
    · intro _
      cases hp : (eventLoop queue).panicMsg with
      | none =>
        exact ⟨by simp [runActor, hp],
          ⟨(eventLoop queue).trace
            ++ [.ranOnStop, .exitFired, .returned (eventLoop queue).exitErr],
            by simp [runActor, hp]⟩⟩
      | some m =>
        exact ⟨by simp [runActor, hp], ⟨(eventLoop queue).trace, by simp [runActor, hp]⟩⟩

/-- Witness for C3 at a failing and a succeeding startup hook. -/
theorem c3_spawn_startup_hook_witness :
    (runActor 7 (.error "bad start") ([] : List (Event Nat)) ⟨[], []⟩).loopEntered = false
    ∧ (runActor 7 (.ok ()) ([] : List (Event Nat)) ⟨[], []⟩).spawnResult = .ok () := by
  have h1 := (c3_spawn_startup_hook (ρ := Nat) 7 (.error "bad start") [] ⟨[], []⟩).2.1
    "bad start" rfl
  have h2 := (c3_spawn_startup_hook (ρ := Nat) 7 (.ok ()) [] ⟨[], []⟩).2.2 rfl
  exact ⟨h1.1, h2.1⟩

/-- C4: in the unsupervised loop, an Exec returning an error records it and
ends the loop, Stop(result) records result and ends the loop, Restart and
AddSupervisor are a fatal internal-usage panic, and after the loop ends the
shutdown hook runs, then the exit signal fires, then the task returns
exactly the recorded result. -/
theorem c4_unsupervised_loop_protocol {ρ : Type} (i p : Nat) (c : ExecCl ρ)
    (r : Except Err Unit) (rest : List (Event ρ)) :
    (∀ e, (execClosure c).1 = .error e →
        eventLoop (.Exec i c :: rest) =
          ⟨.error e, .observed (.Exec i c) :: repActs (execClosure c).2 i
              ++ [.executed i (.error e)], rest, none⟩)
    ∧ eventLoop (.Stop r :: rest) =
        ⟨r, [.observed (.Stop r), .stopObserved r], rest, none⟩
    ∧ (eventLoop (.Restart :: rest)).panicMsg = some panicSupervisorMsg
    ∧ (eventLoop (.AddSupervisor p :: rest)).panicMsg = some panicSupervisorMsg
    ∧ (∀ (id : ActorID) (queue : List (Event ρ)) (reg : Registry),
        (eventLoop queue).panicMsg = none →
          (runActor id (.ok ()) queue reg).trace =
            [.insertName id, .ranOnStart (.ok ()), .addrReturned]
              ++ (eventLoop queue).trace
              ++ [.ranOnStop, .exitFired, .returned (eventLoop queue).exitErr]
          ∧ (runActor id (.ok ()) queue reg).taskResult = some (eventLoop queue).exitErr) := by
  refine ⟨?_, rfl, rfl, rfl, ?_⟩
  · intro e he
    rcases hc : execClosure c with ⟨res, rep⟩
    rw [hc] at he
    cases res with
    | ok u => cases he
    | error e2 =>
      cases he
      simp [eventLoop, hc]
  · intro id queue reg h
    constructor
    · simp [runActor, h]
    · simp [runActor, h]

/-- Witness for C4 at a failing Exec and a Stop-terminated run. -/
theorem c4_unsupervised_loop_protocol_witness :
    eventLoop ([.Exec 0 ⟨true, .error "boom"⟩] : List (Event Nat)) =
      ⟨.error "boom", [.observed (.Exec 0 ⟨true, .error "boom"⟩),
        .executed 0 (.error "boom")], [], none⟩
    ∧ (runActor 5 (.ok ()) ([.Stop (.ok ())] : List (Event Nat)) ⟨[], []⟩).taskResult
        = some (.ok ()) := by
  constructor
  · have h := (c4_unsupervised_loop_protocol 0 0 (⟨true, .error "boom"⟩ : ExecCl Nat)
      (.ok ()) []).1 "boom" rfl
    simpa [repActs, execClosure] using h
  · have h := (c4_unsupervised_loop_protocol 0 0 (⟨true, .error "boom"⟩ : ExecCl Nat)
      (.ok ()) []).2.2.2.2 5 [.Stop (.ok ())] ⟨[], []⟩ rfl
    simpa [eventLoop] using h.2

/-- C7: for a successfully spawned actor fed only valid events, the exit
signal fires exactly once, await_stop is still blocked exactly while the
signal has not fired, and once it has fired every invocation returns the
same Ok outcome. -/
theorem c7_exit_signal_once_await_stop {ρ : Type} (id : ActorID)
    (queue : List (Event ρ)) (reg : Registry)
    (hq : ∀ ev ∈ queue, validEvent ev = true) :
    countFired (runActor id (.ok ()) queue reg).trace = 1
    ∧ (runActor id (.ok ()) queue reg).signal = .firedOk
    ∧ awaitStop (runActor id (.ok ()) queue reg).signal = some (.ok ())
    ∧ awaitStop .notFired = none
    ∧ (∀ s : SignalState, s = .notFired ∨ s = .firedOk →
        ((awaitStop s).isSome = true ↔ s = .firedOk)) := by
  have hp : (eventLoop queue).panicMsg = none := eventLoop_panic_none queue hq
  refine ⟨?_, ?_, ?_, rfl, ?_⟩
  · have h0 := countFired_eventLoop queue
    simp [runActor, hp, countFired, List.countP_append, List.countP_cons, isFired] at h0 ⊢
    simpa [countFired] using h0
  · simp [runActor, hp]
  · simp [runActor, hp, awaitStop]
  · intro s hs
    cases hs with
    | inl h => simp [h, awaitStop]
    | inr h => simp [h, awaitStop]

/-- Witness for C7 on a concrete stop-terminated run. -/
theorem c7_exit_signal_once_await_stop_witness :
    countFired (runActor 3 (.ok ()) ([.Stop (.ok ())] : List (Event Nat)) ⟨[], []⟩).trace = 1
    ∧ awaitStop (runActor 3 (.ok ()) ([.Stop (.ok ())] : List (Event Nat)) ⟨[], []⟩).signal
        = some (.ok ()) := by
  have h := c7_exit_signal_once_await_stop (ρ := Nat) 3 [.Stop (.ok ())] ⟨[], []⟩
    (by intro ev hev; simp at hev; subst hev; rfl)
  exact ⟨h.1, h.2.2.1⟩

/-- C8: the single processing loop observes the events of its mailbox in
exactly enqueue order, the observed events being an initial segment of the
queue, and executes the Exec events in exactly that order with each
execution completed inside the corresponding trace position. -/
theorem c8_mailbox_order {ρ : Type} (queue : List (Event ρ)) :
    ∃ k, observedOf (eventLoop queue).trace = queue.take k
      ∧ executedIds (eventLoop queue).trace = execIds (queue.take k) := by
  induction queue with
  | nil => exact ⟨0, by simp [eventLoop, observedOf, executedIds], by
      simp [eventLoop, executedIds, execIds]⟩
  | cons ev rest ih =>
    cases ev with
    | Stop r =>
      refine ⟨1, ?_, ?_⟩
      · simp [eventLoop, observedOf, obsOf]
      · simp [eventLoop, executedIds, exeOf, execIds, execId]
    | Restart =>
      refine ⟨1, ?_, ?_⟩
      · simp [eventLoop, observedOf, obsOf]
      · simp [eventLoop, executedIds, exeOf, execIds, execId]
    | AddSupervisor p =>
      refine ⟨1, ?_, ?_⟩
      · simp [eventLoop, observedOf, obsOf]
      · simp [eventLoop, executedIds, exeOf, execIds, execId]
    | Exec i c =>
      rcases c with ⟨dc, hr⟩
      cases dc with
      | false =>
        refine ⟨1, ?_, ?_⟩
        · simp [eventLoop, execClosure, repActs, observedOf, obsOf]
        · simp [eventLoop, execClosure, repActs, executedIds, exeOf, execIds, execId]
      | true =>
        cases hr with
        | error e =>
          refine ⟨1, ?_, ?_⟩
          · simp [eventLoop, execClosure, repActs, observedOf, obsOf]
          · simp [eventLoop, execClosure, repActs, executedIds, exeOf, execIds, execId]
        | ok r =>
          obtain ⟨k, h1, h2⟩ := ih
          refine ⟨k + 1, ?_, ?_⟩
          · simpa [eventLoop, execClosure, repActs, observedOf, obsOf] using h1
          · simpa [eventLoop, execClosure, repActs, executedIds, exeOf, execIds, execId]
              using h2

/-- C2: when the reply takes longer than the timeout, call_timeout yields
the distinct timed-out outcome Ok(None) whatever the reply channel would
eventually deliver; that outcome is neither an error nor a delivered
handler result, and a handler failure inside the window yields an error
instead, so callers can distinguish timeout from failure. -/
theorem c2_call_timeout_distinct {ρ : Type} (d el : Nat) (chan : Option (Except Err ρ)) :
    (d < el → call_timeout el d chan = .ok none)
    ∧ (∀ r : ρ, (Except.ok none : Except Err (Option ρ)) ≠ .ok (some r))
    ∧ ((Except.ok none : Except Err (Option ρ)) ≠ .error canceledErr)
    ∧ (∀ (i : Nat) (c : ExecCl ρ) (e : Err), (execClosure c).1 = .error e → el ≤ d →
        call_timeout el d (replyDelivery (eventLoop [.Exec i c]).trace i) = .error canceledErr) := by
  refine ⟨?_, ?_, ?_, ?_⟩
  · intro h
    simp [call_timeout, h]
  · intro r h
    cases h
  · intro h
    cases h
  · intro i c e he hel
    rcases c with ⟨dc, hr⟩
    cases dc with
    | false =>
      simp [eventLoop, execClosure, repActs, replyDelivery, repOf, call_timeout,
        Nat.not_lt_of_le hel]
    | true =>
      cases hr with
      | error e2 =>
        simp [eventLoop, execClosure, repActs, replyDelivery, repOf, call_timeout,
          Nat.not_lt_of_le hel]
      | ok r =>
        simp [execClosure] at he

/-- Witness for C2: a reply slower than the timeout yields Ok(None), a
handler failure inside the window yields the cancellation error. -/
theorem c2_call_timeout_distinct_witness :
    call_timeout 5 2 (some (.ok (7 : Nat))) = .ok none
    ∧ call_timeout 1 2
        (replyDelivery (eventLoop ([.Exec 0 ⟨true, .error "dead"⟩] : List (Event Nat))).trace 0)
        = .error canceledErr := by
  have h := c2_call_timeout_distinct (ρ := Nat) 2 5 (some (.ok 7))
  have h2 := c2_call_timeout_distinct (ρ := Nat) 2 1 none
  exact ⟨h.1 (by decide), h2.2.2.2 0 ⟨true, .error "dead"⟩ "dead" rfl (by decide)⟩

/-- C10: on a supervised actor a Stop event carrying Err does not terminate
the actor directly: it triggers supervisor escalation exactly like a handler
failure, a restart decision running the restart hook and resuming the
mailbox loop on the remaining queue, a terminate decision ending the loop
with the supervisor's error; only Stop(Ok) bypasses supervision and ends
the loop permanently without consuming a decision. -/
theorem c10_supervised_stop_err_escalates {ρ : Type} (e : Err) (rest : List (Event ρ))
    (k : Nat) (decisions : Nat → Except Err Unit) :
    Act.escalated (decisions k) ∈ (supLoop decisions (.Stop (.error e) :: rest) k).trace
    ∧ (decisions k = .ok () →
        supLoop decisions (.Stop (.error e) :: rest) k =
          ⟨(supLoop decisions rest (k + 1)).exitErr,
            [.observed (.Stop (.error e)), .stopObserved (.error e),
              .escalated (.ok ()), .restartHookRan]
              ++ (supLoop decisions rest (k + 1)).trace,
            (supLoop decisions rest (k + 1)).remaining,
            (supLoop decisions rest (k + 1)).decisionsUsed⟩)
    ∧ (∀ e2, decisions k = .error e2 →
        (supLoop decisions (.Stop (.error e) :: rest) k).exitErr = .error e2
        ∧ (supLoop decisions (.Stop (.error e) :: rest) k).remaining = rest)
    ∧ supLoop decisions (.Stop (.ok ()) :: rest) k =
        ⟨.ok (), [.observed (.Stop (.ok ())), .stopObserved (.ok ())], rest, k⟩ := by
  refine ⟨?_, ?_, ?_, rfl⟩
  · cases hd : decisions k with
    | ok u => cases u; simp [supLoop, hd]
    | error e2 => simp [supLoop, hd]
  · intro hd
    simp [supLoop, hd]
  · intro e2 hd
    constructor
    · simp [supLoop, hd]
    · simp [supLoop, hd]

/-- Witness for C10 with a restarting and a terminating decision. -/
theorem c10_supervised_stop_err_escalates_witness :
    (supLoop (fun _ => .ok ()) ([.Stop (.error "down")] : List (Event Nat)) 0).trace
      = [.observed (.Stop (.error "down")), .stopObserved (.error "down"),
          .escalated (.ok ()), .restartHookRan]
    ∧ (supLoop (fun _ => .error "nomore") ([.Stop (.error "down")] : List (Event Nat)) 0).exitErr
      = .error "nomore" := by
  constructor
  · have h := (c10_supervised_stop_err_escalates (ρ := Nat) "down" [] 0 (fun _ => .ok ())).2.1 rfl
    rw [h]
    simp [supLoop]
  · exact ((c10_supervised_stop_err_escalates (ρ := Nat) "down" [] 0
      (fun _ => .error "nomore")).2.2.1 "nomore" rfl).1

/-- C5: on a supervised actor, an inner loop ending with a failing Exec
invokes supervisor escalation; a restart decision runs the restart hook and
re-enters the same event loop on exactly the remaining queue (no queued
event dropped); a terminate decision ends the outer loop with the
supervisor's error, and every supervised run finishes by running the
shutdown hook and firing the exit signal exactly once. -/
theorem c5_supervised_restart_terminate {ρ : Type} (i : Nat) (c : ExecCl ρ)
    (rest : List (Event ρ)) (k : Nat) (decisions : Nat → Except Err Unit) (e : Err)
    (hf : (execClosure c).1 = .error e) :
    Act.escalated (decisions k) ∈ (supLoop decisions (.Exec i c :: rest) k).trace
    ∧ (decisions k = .ok () →
        supLoop decisions (.Exec i c :: rest) k =
          ⟨(supLoop decisions rest (k + 1)).exitErr,
            [.observed (.Exec i c), .executed i (.error e),
              .escalated (.ok ()), .restartHookRan]
              ++ (supLoop decisions rest (k + 1)).trace,
            (supLoop decisions rest (k + 1)).remaining,
            (supLoop decisions rest (k + 1)).decisionsUsed⟩)
    ∧ (∀ e2, decisions k = .error e2 →
        supLoop decisions (.Exec i c :: rest) k =
          ⟨.error e2, [.observed (.Exec i c), .executed i (.error e),
            .escalated (.error e2)], rest, k + 1⟩)
    ∧ (∀ (id : ActorID) (reg : Registry) (queue : List (Event ρ)),
        countFired (supervisedRunActor id (.ok ()) decisions queue reg).trace = 1
        ∧ (supervisedRunActor id (.ok ()) decisions queue reg).trace =
            [.insertName id, .ranOnStart (.ok ()), .addrReturned]
              ++ (supLoop decisions queue 0).trace
              ++ [.ranOnStop, .exitFired, .returned (supLoop decisions queue 0).exitErr]) := by
  have hrep : execClosure c = (.error e, none) := by
    rcases c with ⟨dc, hr⟩
    cases dc with
    | false =>
      simp [execClosure] at hf ⊢
      exact hf
    | true =>
      cases hr with
      | error e2 =>
        simp [execClosure] at hf ⊢
        exact hf
      | ok r => simp [execClosure] at hf
  refine ⟨?_, ?_, ?_, ?_⟩
  · cases hd : decisions k with
    | ok u => cases u; simp [supLoop, hrep, hd, repActs]
    | error e2 => simp [supLoop, hrep, hd, repActs]
  · intro hd
    simp [supLoop, hrep, hd, repActs]
  · intro e2 hd
    simp [supLoop, hrep, hd, repActs]
  · intro id reg queue
    constructor
    · have h0 := countFired_supLoop decisions queue 0
      simp [supervisedRunActor, countFired, List.countP_append, List.countP_cons,
        isFired] at h0 ⊢
      simpa [countFired] using h0
    · simp [supervisedRunActor]

/-- Witness for C5: a poisoned handler under an always-restart supervisor
resumes the queue, and under a refusing supervisor terminates with the
supervisor's error. -/
theorem c5_supervised_restart_terminate_witness :
    supLoop (fun _ => .ok ()) ([.Exec 0 ⟨true, .error "dead"⟩] : List (Event Nat)) 0 =
      ⟨.ok (), [.observed (.Exec 0 ⟨true, .error "dead"⟩), .executed 0 (.error "dead"),
        .escalated (.ok ()), .restartHookRan], [], 1⟩
    ∧ supLoop (fun _ => .error "nomore") ([.Exec 0 ⟨true, .error "dead"⟩] : List (Event Nat)) 0 =
      ⟨.error "nomore", [.observed (.Exec 0 ⟨true, .error "dead"⟩), .executed 0 (.error "dead"),
        .escalated (.error "nomore")], [], 1⟩ := by
  constructor
  · have h := (c5_supervised_restart_terminate (ρ := Nat) 0 ⟨true, .error "dead"⟩ [] 0
      (fun _ => .ok ()) "dead" rfl).2.1 rfl
    rw [h]
    simp [supLoop]
  · exact (c5_supervised_restart_terminate (ρ := Nat) 0 ⟨true, .error "dead"⟩ [] 0
      (fun _ => .error "nomore") "dead" rfl).2.2.1 "nomore" rfl

/-- C1 counterexample: a handler failure on the call path is recorded as
the exit reason, but the failure value is not delivered on the reply
channel; the channel is cancelled (delivers nothing), so the claim that the
failure is delivered to the reply channel is false at this input. -/
theorem c1_counterexample_reply_canceled :
    (eventLoop ([.Exec 0 ⟨true, .error "boom"⟩] : List (Event Nat))).exitErr = .error "boom"
    ∧ replyDelivery (eventLoop ([.Exec 0 ⟨true, .error "boom"⟩] : List (Event Nat))).trace 0
        = none
    ∧ replyDelivery (eventLoop ([.Exec 0 ⟨true, .error "boom"⟩] : List (Event Nat))).trace 0
        ≠ some (.error "boom") := by
  refine ⟨rfl, rfl, by decide⟩

/-- C1 (amended): a failure of the Exec closure on the call path is
recorded as the exit reason (unsupervised) and escalated to supervision
(supervised), and the reply channel of the call is cancelled, delivering no
value, so that the call fails with the cancellation error; the call
succeeds exactly when the closure succeeds, and fails whenever the loop
already exited before the event (here: a preceding Stop). -/
theorem c1_handler_failure_call_path {ρ : Type} (pre : List (Event ρ)) (i : Nat)
    (c : ExecCl ρ) (rest : List (Event ρ))
    (hpre : ∀ ev ∈ pre, execOkEvent ev = true) (hi : i ∉ execIds pre) :
    (∀ e, (execClosure c).1 = .error e →
        (eventLoop (pre ++ .Exec i c :: rest)).exitErr = .error e
        ∧ replyDelivery (eventLoop (pre ++ .Exec i c :: rest)).trace i = none
        ∧ callOutcome (eventLoop (pre ++ .Exec i c :: rest)).trace i = .error canceledErr)
    ∧ (∀ r0, c = ⟨true, .ok r0⟩ →
        callOutcome (eventLoop (pre ++ .Exec i c :: rest)).trace i = .ok r0)
    ∧ ((∃ r0, callOutcome (eventLoop (pre ++ .Exec i c :: rest)).trace i = .ok r0)
        ↔ ∃ u, (execClosure c).1 = .ok u)
    ∧ (∀ (r : Except Err Unit) (rest2 : List (Event ρ)),
        callOutcome (eventLoop (pre ++ .Stop r :: rest2)).trace i = .error canceledErr)
    ∧ (∀ (e : Err) (k : Nat) (decisions : Nat → Except Err Unit),
        (execClosure c).1 = .error e →
        Act.escalated (decisions k) ∈ (supLoop decisions (.Exec i c :: rest) k).trace) := by
  have hnone : (preTrace pre).filterMap (repOf i) = [] := filterMap_repOf_preTrace pre i hi
  have hfail : ∀ e, (execClosure c).1 = .error e →
      (eventLoop (pre ++ .Exec i c :: rest)).exitErr = .error e
      ∧ replyDelivery (eventLoop (pre ++ .Exec i c :: rest)).trace i = none
      ∧ callOutcome (eventLoop (pre ++ .Exec i c :: rest)).trace i = .error canceledErr := by
    intro e he
    have hrep : execClosure c = (.error e, none) := by
      rcases c with ⟨dc, hr⟩
      cases dc with
      | false =>
        simp [execClosure] at he ⊢
        exact he
      | true =>
        cases hr with
        | error e2 =>
          simp [execClosure] at he ⊢
          exact he
        | ok r => simp [execClosure] at he
    rw [eventLoop_append_ok pre (.Exec i c :: rest) hpre]
    refine ⟨by simp [eventLoop, hrep], ?_, ?_⟩
    · simp [replyDelivery, List.filterMap_append, hnone, eventLoop, hrep, repActs, repOf]
    · simp [callOutcome, replyDelivery, List.filterMap_append, hnone, eventLoop, hrep,
        repActs, repOf]
  have hok : ∀ r0, c = ⟨true, .ok r0⟩ →
      callOutcome (eventLoop (pre ++ .Exec i c :: rest)).trace i = .ok r0 := by
    intro r0 hc
    subst hc
    rw [eventLoop_append_ok pre (.Exec i ⟨true, .ok r0⟩ :: rest) hpre]
    simp [callOutcome, replyDelivery, List.filterMap_append, hnone, eventLoop,
      execClosure, repActs, repOf]
  refine ⟨hfail, hok, ?_, ?_, ?_⟩
  · constructor
    · rintro ⟨r0, hr0⟩
      rcases c with ⟨dc, hr⟩
      cases dc with
      | false =>
        have := (hfail downcastErr (by simp [execClosure])).2.2
        rw [this] at hr0
        cases hr0
      | true =>
        cases hr with
        | error e2 =>
          have := (hfail e2 (by simp [execClosure])).2.2
          rw [this] at hr0
          cases hr0
        | ok r => exact ⟨(), by simp [execClosure]⟩
    · rintro ⟨u, hu⟩
      rcases c with ⟨dc, hr⟩
      cases dc with
      | false => simp [execClosure] at hu
      | true =>
        cases hr with
        | error e2 => simp [execClosure] at hu
        | ok r => exact ⟨r, hok r rfl⟩
  · intro r rest2
    rw [eventLoop_append_ok pre (.Stop r :: rest2) hpre]
    simp [callOutcome, replyDelivery, List.filterMap_append, hnone, eventLoop, repOf]
  · intro e k decisions he
    have hrep : execClosure c = (.error e, none) := by
      rcases c with ⟨dc, hr⟩
      cases dc with
      | false =>
        simp [execClosure] at he ⊢
        exact he
      | true =>
        cases hr with
        | error e2 =>
          simp [execClosure] at he ⊢
          exact he
        | ok r => simp [execClosure] at he
    cases hd : decisions k with
    | ok u => cases u; simp [supLoop, hrep, hd, repActs]
    | error e2 => simp [supLoop, hrep, hd, repActs]

/-- Witness for C1 (amended) at a concrete one-event queue with a failing
handler and at a successful call. -/
theorem c1_handler_failure_call_path_witness :
    (eventLoop ([.Exec 0 ⟨true, .error "x"⟩] : List (Event Nat))).exitErr = .error "x"
    ∧ callOutcome (eventLoop ([.Exec 0 ⟨true, .error "x"⟩] : List (Event Nat))).trace 0
        = .error canceledErr
    ∧ callOutcome (eventLoop ([.Exec 1 ⟨true, .ok 9⟩] : List (Event Nat))).trace 1
        = .ok 9 := by
  have h := (c1_handler_failure_call_path ([] : List (Event Nat)) 0 ⟨true, .error "x"⟩ []
    (by intro ev hev; cases hev) (by simp [execIds])).1 "x" rfl
  have h2 := (c1_handler_failure_call_path ([] : List (Event Nat)) 1 ⟨true, .ok 9⟩ []
    (by intro ev hev; cases hev) (by simp [execIds])).2.1 9 rfl
  exact ⟨by simpa using h.1, by simpa using h.2.2, by simpa using h2⟩

end Xtor
